import Mathlib

/-!
Shallow embedding of `mpop/composites/__init__.py` (satpy/mpop composite
recipes): masked 2-D band grids with attached metadata, the base RGB
compositor (channel stacking plus metadata merge), the sun-zenith
normalizer with its process-wide cosine cache, and the fixed-formula
recipe variants (SunCorrectedRGB, Airmass, Convection, Dust).

Masked numeric cells are `Option Rat` (`none` = masked/invalid value);
a 2-D masked array is a list of rows.  Metadata dictionaries are
association lists where a later binding shadows an earlier one, so
`dict.update` is list append.  Python exceptions become an error type
carried in `Except`.
-/

namespace Mpop

/-- One cell of a numpy masked array: `none` is a masked (invalid) value. -/
abbrev Cell := Option Rat

/-- Element-wise subtraction on masked cells: any masked operand masks the result. -/
def Cell.sub : Cell → Cell → Cell
  | some x, some y => some (x - y)
  | _, _ => none

/-- Element-wise division on masked cells: any masked operand masks the result. -/
def Cell.div : Cell → Cell → Cell
  | some x, some y => some (x / y)
  | _, _ => none

/-- A 2-D masked array (H rows of W cells). -/
abbrev Grid := List (List Cell)

/-- `g` is a well-formed H×W grid: H rows, each of width W. -/
def Grid.shapeIs (g : Grid) (h w : Nat) : Prop :=
  g.length = h ∧ ∀ row ∈ g, row.length = w

instance (g : Grid) (h w : Nat) : Decidable (g.shapeIs h w) := by
  unfold Grid.shapeIs; infer_instance

/-- Element-wise subtraction of two grids (zipped; equal shapes in practice). -/
def Grid.sub (a b : Grid) : Grid :=
  List.zipWith (fun ra rb => List.zipWith Cell.sub ra rb) a b

/-- Element-wise division of two grids (zipped; equal shapes in practice). -/
def Grid.div (a b : Grid) : Grid :=
  List.zipWith (fun ra rb => List.zipWith Cell.div ra rb) a b

/-- An area descriptor: a name identifying the grid, and the
longitude/latitude of each sample (what `area.get_lonlats()` returns). -/
structure Area where
  name : String
  lonlats : List (List (Rat × Rat))
  deriving DecidableEq, Repr

/-- A metadata value as stored in a projectable's `info` dictionary:
a string, a set of strings (kept as a sorted duplicate-free list), `None`,
a number, a `start_time` timestamp, or an `area` object. -/
inductive Value where
  | vstr : String → Value
  | vset : List String → Value
  | vnone : Value
  | vnum : Rat → Value
  | vtime : Nat → Value
  | varea : Area → Value
  deriving DecidableEq, Repr

/-- A metadata dictionary.  A later binding shadows an earlier one, so
`update` (Python `dict.update`) is plain append. -/
abbrev Info := List (String × Value)

/-- Dictionary lookup: the value of the LAST binding of `key`, if any. -/
def Info.lookup : Info → String → Option Value
  | [], _ => none
  | (k, v) :: rest, key =>
    match Info.lookup rest key with
    | some w => some w
    | none => if k = key then some v else none

/-- `a.update b` : every key of `b` overwrites the same key of `a`. -/
def Info.update (a b : Info) : Info := a ++ b

/-- `info.pop key` (with a default): remove every binding of `key`. -/
def Info.pop (a : Info) (key : String) : Info :=
  a.filter (fun kv => kv.1 ≠ key)

/-- `info[key] = v` : bind `key` to `v`, shadowing earlier bindings. -/
def Info.set (a : Info) (key : String) (v : Value) : Info :=
  a ++ [(key, v)]

/-- Insert a string into a canonical (sorted, duplicate-free) string set. -/
def SSet.insert (x : String) : List String → List String
  | [] => [x]
  | y :: ys =>
    if x = y then y :: ys
    else if x < y then x :: y :: ys
    else y :: SSet.insert x ys

/-- Union of a canonical string set with the elements of a list. -/
def SSet.union (s : List String) (t : List String) : List String :=
  t.foldl (fun acc x => SSet.insert x acc) s

/-- The Python exceptions this module raises. -/
inductive PyError where
  | valueError : String → PyError
  | typeError : String → PyError
  | keyError : String → PyError
  | indexError : PyError
  | notImplementedError : PyError
  deriving DecidableEq, Repr

/-- A `Projectable`: a data array plus its `info` metadata dictionary.
The data is 2-D (`Grid`) for input bands and 3-D (`List Grid`) for the
stacked RGB output, so the container is polymorphic in the array type. -/
structure Projectable (α : Type) where
  data : α
  info : Info
  deriving DecidableEq, Repr

/-- Modelled from the spec: `Projectable.__sub__` lives in
`mpop/projectable.py`, which is not part of the sources; §4.5 specifies
"element-wise subtraction on the underlying grids, mask-propagating".
The metadata of the difference is not used by any recipe (the RGB
compositor re-merges band metadata), so the left operand's is kept. -/
def Projectable.sub (p q : Projectable Grid) : Projectable Grid :=
  { data := p.data.sub q.data, info := p.info }

/-- Modelled from the spec: `Projectable.__div__` lives in
`mpop/projectable.py`, which is not part of the sources; §4.2 specifies
element-wise division propagating masks, with "No metadata ... altered
by this step itself". -/
def Projectable.divGrid (p : Projectable Grid) (g : Grid) : Projectable Grid :=
  { data := p.data.div g, info := p.info }

/-- `np.ma.dstack` of three equal-shape 2-D arrays: an H×W×3 array whose
depth axis holds the three cells of each pixel, preserving masks. -/
def zip3Row : List Cell → List Cell → List Cell → List (List Cell)
  | x :: xs, y :: ys, z :: zs => [x, y, z] :: zip3Row xs ys zs
  | _, _, _ => []

/-- Row-wise part of `np.ma.dstack` on three grids. -/
def dstack3 : Grid → Grid → Grid → List (List (List Cell))
  | ra :: as', rb :: bs, rc :: cs => zip3Row ra rb rc :: dstack3 as' bs cs
  | _, _, _ => []

/-- The `k`-th depth slice of an H×W×3 array: `result[i][j] = t[i][j][k]`. -/
def sliceAt (t : List (List (List Cell))) (k : Nat) : Grid :=
  t.map (fun row => row.map (fun c => c.getD k none))

/-- `np.rollaxis(·, axis=2)` on the H×W×3 result of `dstack3`: the 3×H×W
array of its three depth slices. -/
def rollaxis3 (t : List (List (List Cell))) : List Grid :=
  [sliceAt t 0, sliceAt t 1, sliceAt t 2]

/-- One step of the sensor-collection loop of `RGBCompositor.__call__`:
`current_sensor = info.get("sensor", None); if current_sensor: ...` —
a (truthy) string is added to the set, a (truthy) set is unioned in,
falsy values (`None`, `""`, empty set, `0`) are skipped, and any other
truthy value makes `set |= value` raise a `TypeError`. -/
def addSensor (acc : List String) : Option Value → Except PyError (List String)
  | none => .ok acc
  | some .vnone => .ok acc
  | some (.vstr s) => .ok (if s = "" then acc else SSet.insert s acc)
  | some (.vset l) => .ok (if l = [] then acc else SSet.union acc l)
  | some (.vnum q) =>
    if q = 0 then .ok acc
    else .error (.typeError "unsupported operand type for inplace or")
  | some (.vtime _) => .error (.typeError "unsupported operand type for inplace or")
  | some (.varea _) => .error (.typeError "unsupported operand type for inplace or")

/-- The sensor-collection loop over the projectables, in order. -/
def collectSensors (ps : List (Projectable Grid)) : Except PyError (List String) :=
  ps.foldlM (fun acc p => addSensor acc (p.info.lookup "sensor")) []

/-- Collapse the collected sensor set: `None` if empty, the single string
if a singleton, the set itself otherwise. -/
def sensorValue : List String → Value
  | [] => .vnone
  | [s] => .vstr s
  | l => .vset l

/-- `RGBCompositor.__call__`: demand exactly three projectables, stack
their data along a new leading axis (`rollaxis(dstack(...), 2)`), merge
the metadata left to right (band 0, band 1, band 2, then the compositor's
own `info`), drop `wavelength_range` and `units`, aggregate `sensor`,
and force `mode = "RGB"`. -/
def RGBCompositor.call (selfInfo : Info) (ps : List (Projectable Grid)) :
    Except PyError (Projectable (List Grid)) :=
  match ps with
  | [p0, p1, p2] =>
    let theData := rollaxis3 (dstack3 p0.data p1.data p2.data)
    let merged :=
      ((((p0.info.update p1.info).update p2.info).update selfInfo).pop
          "wavelength_range").pop "units"
    match collectSensors [p0, p1, p2] with
    | .error e => .error e
    | .ok s =>
      .ok { data := theData
            info := (merged.set "sensor" (sensorValue s)).set "mode" (.vstr "RGB") }
  | _ => .error (.valueError ("Expected 3 projectables, got " ++ toString ps.length))

/-- The `masked_outside(lo, hi)` step on one cell: a value strictly below
`lo` or strictly above `hi` is masked; the bounds themselves are kept. -/
def maskCell (lo hi : Rat) : Cell → Cell
  | none => none
  | some x => if x < lo ∨ hi < x then none else some x

/-- `np.ma.masked_outside(g, lo, hi)` over a whole grid. -/
def maskedOutside (lo hi : Rat) (g : Grid) : Grid :=
  g.map (fun row => row.map (maskCell lo hi))

/-- The masked cosine-of-solar-zenith grid computed on a cache miss:
`cos_zen` (an external ephemeris function, passed in as a parameter)
applied to every lon/lat sample of the area at `start_time`, then
`masked_outside(0.035, 1)`. -/
def cosZenMasked (cosZen : Nat → Rat × Rat → Rat) (t : Nat) (a : Area) : Grid :=
  maskedOutside (35/1000) 1 (a.lonlats.map (fun row => row.map (fun ll => some (cosZen t ll))))

/-- The process-wide `SunZenithNormalize.coszen` cache: `(start_time,
area.name)` keys mapped to masked cosine grids. -/
abbrev CosCache := List ((Nat × String) × Grid)

/-- Lookup of a key in the cosine cache. -/
def cacheLookup (c : CosCache) (k : Nat × String) : Option Grid :=
  (c.find? (fun e => e.1 = k)).map (fun e => e.2)

/-- Insertion of a fresh entry into the cosine cache. -/
def cacheInsert (c : CosCache) (k : Nat × String) (g : Grid) : CosCache :=
  (k, g) :: c

/-- Result of one `SunZenithNormalize.__call__`: the cache after the call,
the divided projectable, and whether the angle computation actually ran
(instrumentation for the caching claims). -/
structure SZNResult where
  cache : CosCache
  result : Projectable Grid
  computed : Bool
  deriving DecidableEq, Repr

/-- The `(start_time, area.name)` cache key of a projectable, when its
metadata holds both fields. -/
def sznKey (p : Projectable Grid) : Option (Nat × String) :=
  match p.info.lookup "start_time", p.info.lookup "area" with
  | some (.vtime t), some (.varea a) => some (t, a.name)
  | _, _ => none

/-- `SunZenithNormalize.__call__`: read `start_time` and `area` from the
projectable's metadata (a missing field is a `KeyError`), look the
`(start_time, area.name)` key up in the process-wide cache, compute and
store the masked cosine grid only on a miss, and return the projectable
divided element-wise by the cached grid. -/
def sunZenithNormalize (cosZen : Nat → Rat × Rat → Rat) (cache : CosCache)
    (p : Projectable Grid) : Except PyError SZNResult :=
  match p.info.lookup "start_time", p.info.lookup "area" with
  | some (.vtime t), some (.varea a) =>
    match cacheLookup cache (t, a.name) with
    | some g => .ok ⟨cache, p.divGrid g, false⟩
    | none =>
      .ok ⟨cacheInsert cache (t, a.name) (cosZenMasked cosZen t a),
           p.divGrid (cosZenMasked cosZen t a), true⟩
  | none, _ => .error (.keyError "start_time")
  | some _, none => .error (.keyError "area")
  | some _, some _ => .error (.typeError "start_time or area of unexpected type")

/-- The in-place loop of `SunCorrectedRGB.__call__`: walk the caller's
list in order; a band whose `units` metadata is `"%"` is overwritten with
its sun-zenith-normalized version (threading the shared cosine cache),
any other band is left untouched.  Returns the final cache and the final
state of the caller's list. -/
def correctLoop (cosZen : Nat → Rat × Rat → Rat) :
    CosCache → List (Projectable Grid) →
    Except PyError (CosCache × List (Projectable Grid))
  | c, [] => .ok (c, [])
  | c, p :: rest =>
    if p.info.lookup "units" = some (.vstr "%") then
      match sunZenithNormalize cosZen c p with
      | .error e => .error e
      | .ok r =>
        match correctLoop cosZen r.cache rest with
        | .error e => .error e
        | .ok (c', l) => .ok (c', r.result :: l)
    else
      match correctLoop cosZen c rest with
      | .error e => .error e
      | .ok (c', l) => .ok (c', p :: l)

/-- `SunCorrectedRGB.__call__`: run the in-place `units == "%"`
replacement loop over the caller's list, then delegate the (possibly
overwritten) list to `RGBCompositor.__call__`.  Returns the final cache,
the final state of the caller's list, and the composite. -/
def SunCorrectedRGB.call (cosZen : Nat → Rat × Rat → Rat) (selfInfo : Info)
    (cache : CosCache) (ps : List (Projectable Grid)) :
    Except PyError (CosCache × List (Projectable Grid) × Projectable (List Grid)) :=
  match correctLoop cosZen cache ps with
  | .error e => .error e
  | .ok (c', l) =>
    match RGBCompositor.call selfInfo l with
    | .error e => .error e
    | .ok res => .ok (c', l, res)

/-- `projectables[i]` with Python semantics: an `IndexError` when the
sequence is too short. -/
def pyGet (ps : List (Projectable Grid)) (i : Nat) : Except PyError (Projectable Grid) :=
  match ps.get? i with
  | some p => .ok p
  | none => .error .indexError

/-- `Airmass.__call__`: delegate `(p0 - p1, p2 - p3, p0)` to
`RGBCompositor.__call__`. -/
def Airmass.call (selfInfo : Info) (ps : List (Projectable Grid)) :
    Except PyError (Projectable (List Grid)) :=
  match pyGet ps 0, pyGet ps 1, pyGet ps 2, pyGet ps 3 with
  | .ok p0, .ok p1, .ok p2, .ok p3 =>
    RGBCompositor.call selfInfo [p0.sub p1, p2.sub p3, p0]
  | _, _, _, _ => .error .indexError

/-- `Convection.__call__`: delegate `(p3 - p4, p2 - p5, p1 - p0)` to
`RGBCompositor.__call__`. -/
def Convection.call (selfInfo : Info) (ps : List (Projectable Grid)) :
    Except PyError (Projectable (List Grid)) :=
  match pyGet ps 0, pyGet ps 1, pyGet ps 2, pyGet ps 3, pyGet ps 4, pyGet ps 5 with
  | .ok p0, .ok p1, .ok p2, .ok p3, .ok p4, .ok p5 =>
    RGBCompositor.call selfInfo [p3.sub p4, p2.sub p5, p1.sub p0]
  | _, _, _, _, _, _ => .error .indexError

/-- `Dust.__call__`: delegate `(p2 - p1, p1 - p0, p1)` to
`RGBCompositor.__call__`. -/
def Dust.call (selfInfo : Info) (ps : List (Projectable Grid)) :
    Except PyError (Projectable (List Grid)) :=
  match pyGet ps 0, pyGet ps 1, pyGet ps 2 with
  | .ok p0, .ok p1, .ok p2 =>
    RGBCompositor.call selfInfo [p2.sub p1, p1.sub p0, p1]
  | _, _, _ => .error .indexError

/-- The cell of a grid at row `i`, column `j` (`none` when out of range,
matching "masked/invalid"). -/
def Grid.cellAt (g : Grid) (i j : Nat) : Cell :=
  (g.getD i []).getD j none

/-- First-some choice on optional metadata values (dictionary-merge
precedence: the left argument is the later, winning, binding). -/
def pick : Option Value → Option Value → Option Value
  | some v, _ => some v
  | none, b => b

/-- The output metadata exactly as claim C3 words it: band 0's metadata
overlaid by band 1's, then band 2's, then the compositor's own metadata,
after which `wavelength_range` and `units` are removed and `mode` is set
to `"RGB"` — the claim words no separate `sensor` recomputation.  Kept
separate from `RGBCompositor.call` so the two can be compared. -/
def specMergedInfo (selfInfo : Info) (p0 p1 p2 : Projectable Grid) : Info :=
  (((((p0.info.update p1.info).update p2.info).update selfInfo).pop
      "wavelength_range").pop "units").set "mode" (.vstr "RGB")

/-- What a `sensor` metadata value contributes to the collected sensor
set: a non-empty string contributes itself, a set contributes its
elements, anything else (absent, `None`, falsy) contributes nothing. -/
def mentionsV : Option Value → String → Prop
  | some (.vstr t), x => t ≠ "" ∧ x = t
  | some (.vset l), x => x ∈ l
  | _, _ => False

/-- A band's contribution to the collected sensor set. -/
def sensorMentions (p : Projectable Grid) (x : String) : Prop :=
  mentionsV (p.info.lookup "sensor") x

/-- The canonical sun-zenith-normalized version of a band: its data
divided element-wise by the masked cosine grid of its own `start_time`
and `area` (`none` when those metadata fields are absent or ill-typed). -/
def normalizeSpec (cz : Nat → Rat × Rat → Rat) (p : Projectable Grid) :
    Option (Projectable Grid) :=
  match p.info.lookup "start_time", p.info.lookup "area" with
  | some (.vtime t), some (.varea a) => some (p.divGrid (cosZenMasked cz t a))
  | _, _ => none

/-- The cosine cache is faithful for band `p`: whatever the cache holds
under `p`'s `(start_time, area.name)` key is the masked cosine grid of
`p`'s own time and area (or the key is absent). -/
def KeyFaithful (cz : Nat → Rat × Rat → Rat) (c : CosCache)
    (p : Projectable Grid) : Prop :=
  ∀ t a, p.info.lookup "start_time" = some (.vtime t) →
    p.info.lookup "area" = some (.varea a) →
    cacheLookup c (t, a.name) = none ∨
    cacheLookup c (t, a.name) = some (cosZenMasked cz t a)

/-- No two bands of the list carry the same `(start_time, area.name)`
key with different area objects (the cache keys areas by name only, so
a name collision between distinct areas would alias their grids). -/
def PairCoherent (ps : List (Projectable Grid)) : Prop :=
  ∀ p ∈ ps, ∀ q ∈ ps, ∀ t a u b,
    p.info.lookup "start_time" = some (Value.vtime t) →
    p.info.lookup "area" = some (Value.varea a) →
    q.info.lookup "start_time" = some (Value.vtime u) →
    q.info.lookup "area" = some (Value.varea b) →
    t = u → a.name = b.name → a = b

/-! ## Lemmas about channel stacking -/

theorem zip3Row_slices : ∀ (xs ys zs : List Cell),
    ys.length = xs.length → zs.length = xs.length →
    (zip3Row xs ys zs).map (fun c => c.getD 0 none) = xs ∧
    (zip3Row xs ys zs).map (fun c => c.getD 1 none) = ys ∧
    (zip3Row xs ys zs).map (fun c => c.getD 2 none) = zs := by
  intro xs
  induction xs with
  | nil =>
    intro ys zs hy hz
    cases ys with
    | nil =>
      cases zs with
      | nil => simp [zip3Row]
      | cons z zs => simp at hz
    | cons y ys => simp at hy
  | cons x xs ih =>
    intro ys zs hy hz
    cases ys with
    | nil => simp at hy
    | cons y ys =>
      cases zs with
      | nil => simp at hz
      | cons z zs =>
        simp only [List.length_cons, Nat.succ.injEq] at hy hz
        have h := ih ys zs hy hz
        refine ⟨?_, ?_, ?_⟩
        · simp only [zip3Row, List.map_cons, List.getD_cons_zero]
          rw [h.1]
        · simp only [zip3Row, List.map_cons, List.getD_cons_succ,
            List.getD_cons_zero]
          rw [h.2.1]
        · simp only [zip3Row, List.map_cons, List.getD_cons_succ,
            List.getD_cons_zero]
          rw [h.2.2]

theorem sliceAt_dstack3 (w : Nat) : ∀ (a b c : Grid),
    b.length = a.length → c.length = a.length →
    (∀ r ∈ a, r.length = w) → (∀ r ∈ b, r.length = w) → (∀ r ∈ c, r.length = w) →
    sliceAt (dstack3 a b c) 0 = a ∧ sliceAt (dstack3 a b c) 1 = b ∧
    sliceAt (dstack3 a b c) 2 = c := by
  intro a
  induction a with
  | nil =>
    intro b c hb hc _ _ _
    cases b with
    | nil =>
      cases c with
      | nil => simp [dstack3, sliceAt]
      | cons rc cs => simp at hc
    | cons rb bs => simp at hb
  | cons ra as' ih =>
    intro b c hb hc hwa hwb hwc
    cases b with
    | nil => simp at hb
    | cons rb bs =>
      cases c with
      | nil => simp at hc
      | cons rc cs =>
        simp only [List.length_cons, Nat.succ.injEq] at hb hc
        have hra : ra.length = w := hwa ra (by simp)
        have hrb : rb.length = w := hwb rb (by simp)
        have hrc : rc.length = w := hwc rc (by simp)
        have hrow := zip3Row_slices ra rb rc (by rw [hrb, hra]) (by rw [hrc, hra])
        have htail := ih bs cs hb hc
          (fun r hr => hwa r (by simp [hr]))
          (fun r hr => hwb r (by simp [hr]))
          (fun r hr => hwc r (by simp [hr]))
        simp only [dstack3, sliceAt, List.map_cons] at htail ⊢
        exact ⟨by rw [hrow.1]; rw [htail.1],
               by rw [hrow.2.1]; rw [htail.2.1],
               by rw [hrow.2.2]; rw [htail.2.2]⟩

theorem rollaxis3_dstack3 {h w : Nat} (a b c : Grid)
    (ha : a.shapeIs h w) (hb : b.shapeIs h w) (hc : c.shapeIs h w) :
    rollaxis3 (dstack3 a b c) = [a, b, c] := by
  obtain ⟨hal, haw⟩ := ha
  obtain ⟨hbl, hbw⟩ := hb
  obtain ⟨hcl, hcw⟩ := hc
  have hs := sliceAt_dstack3 w a b c (hbl.trans hal.symm) (hcl.trans hal.symm)
    haw hbw hcw
  simp [rollaxis3, hs.1, hs.2.1, hs.2.2]

/-- What a successful three-band `RGBCompositor.call` is made of: the
sensor aggregation succeeded, the data is the rolled `dstack`, and the
metadata is the merged/popped/overwritten dictionary. -/
theorem rgb_call_ok_elim (selfInfo : Info) (p0 p1 p2 : Projectable Grid)
    (out : Projectable (List Grid))
    (hok : RGBCompositor.call selfInfo [p0, p1, p2] = .ok out) :
    ∃ s, collectSensors [p0, p1, p2] = .ok s ∧
      out.data = rollaxis3 (dstack3 p0.data p1.data p2.data) ∧
      out.info = ((((((p0.info.update p1.info).update p2.info).update
          selfInfo).pop "wavelength_range").pop "units").set "sensor"
          (sensorValue s)).set "mode" (.vstr "RGB") := by
  cases hcs : collectSensors [p0, p1, p2] with
  | error e => simp [RGBCompositor.call, hcs] at hok
  | ok s =>
    simp only [RGBCompositor.call, hcs, Except.ok.injEq] at hok
    exact ⟨s, rfl, by rw [← hok], by rw [← hok]⟩

/-- C1: for three equal-shape band grids (with well-formed sensor
metadata, so that the sensor aggregation does not raise), the RGB
compositor succeeds and its output data is the three input grids stacked
along a new leading axis in input order — shape `(3, H, W)`, band 0
first, then band 1, then band 2, masks kept cell for cell. -/
theorem rgb_output_shape_and_order (selfInfo : Info) (p0 p1 p2 : Projectable Grid)
    (h w : Nat) (s : List String)
    (h0 : p0.data.shapeIs h w) (h1 : p1.data.shapeIs h w) (h2 : p2.data.shapeIs h w)
    (hs : collectSensors [p0, p1, p2] = .ok s) :
    ∃ out, RGBCompositor.call selfInfo [p0, p1, p2] = .ok out ∧
      out.data = [p0.data, p1.data, p2.data] ∧
      out.data.length = 3 ∧ (∀ g ∈ out.data, g.shapeIs h w) := by
  have hstack := rollaxis3_dstack3 p0.data p1.data p2.data h0 h1 h2
  cases hc : RGBCompositor.call selfInfo [p0, p1, p2] with
  | error e => simp [RGBCompositor.call, hs] at hc
  | ok out =>
    obtain ⟨s2, _, hdata, _⟩ := rgb_call_ok_elim selfInfo p0 p1 p2 out hc
    have hd : out.data = [p0.data, p1.data, p2.data] := by rw [hdata, hstack]
    refine ⟨out, rfl, hd, by simp [hd], ?_⟩
    rw [hd]
    intro g hg
    simp only [List.mem_cons, List.not_mem_nil, or_false] at hg
    rcases hg with rfl | rfl | rfl
    · exact h0
    · exact h1
    · exact h2

def wGridA : Grid := [[some 1, none], [some 3, some 4]]

def wGridB : Grid := [[some 5, some 6], [none, some 8]]

def wGridC : Grid := [[some 9, some 10], [some 11, none]]

def wBandA : Projectable Grid := ⟨wGridA, [("name", .vstr "b0"), ("sensor", .vstr "abi")]⟩

def wBandB : Projectable Grid := ⟨wGridB, [("name", .vstr "b1"), ("sensor", .vstr "abi")]⟩

def wBandC : Projectable Grid := ⟨wGridC, [("name", .vstr "b2")]⟩

theorem rgb_output_shape_and_order_witness :
    ∃ out, RGBCompositor.call [] [wBandA, wBandB, wBandC] = .ok out ∧
      out.data = [wBandA.data, wBandB.data, wBandC.data] ∧
      out.data.length = 3 ∧ (∀ g ∈ out.data, g.shapeIs 2 2) :=
  rgb_output_shape_and_order [] wBandA wBandB wBandC 2 2 ["abi"]
    (by decide) (by decide) (by decide) (by rfl)

/-! ## Lemmas about input-count validation -/

theorem addSensor_error (acc : List String) (v : Option Value) (e : PyError)
    (h : addSensor acc v = .error e) : ∃ m, e = .typeError m := by
  cases v with
  | none => simp [addSensor] at h
  | some val =>
    cases val with
    | vstr s => simp [addSensor] at h
    | vset l => simp [addSensor] at h
    | vnone => simp [addSensor] at h
    | vnum q =>
      by_cases hq : q = 0
      · simp [addSensor, hq] at h
      · simp [addSensor, hq] at h
        exact ⟨_, h.symm⟩
    | vtime t =>
      simp [addSensor] at h
      exact ⟨_, h.symm⟩
    | varea a =>
      simp [addSensor] at h
      exact ⟨_, h.symm⟩

theorem collectSensors_fold_error :
    ∀ (ps : List (Projectable Grid)) (acc : List String) (e : PyError),
    List.foldlM (fun acc p => addSensor acc (p.info.lookup "sensor")) acc ps
      = .error e →
    ∃ m, e = .typeError m := by
  intro ps
  induction ps with
  | nil => intro acc e h; simp [List.foldlM, pure, Except.pure] at h
  | cons p rest ih =>
    intro acc e h
    simp only [List.foldlM_cons] at h
    cases ha : addSensor acc (p.info.lookup "sensor") with
    | error e2 =>
      rw [ha] at h
      simp only [Bind.bind, Except.bind] at h
      cases h
      exact addSensor_error acc _ _ ha
    | ok a =>
      rw [ha] at h
      simp only [Bind.bind, Except.bind] at h
      exact ih a e h

theorem collectSensors_error (ps : List (Projectable Grid)) (e : PyError)
    (h : collectSensors ps = .error e) : ∃ m, e = .typeError m :=
  collectSensors_fold_error ps [] e h

/-- C2: calling the RGB compositor with a band count other than 3 raises
the `ValueError` whose message names the expected count (3) and the
actual count; with exactly 3 bands no such invalid-count `ValueError` is
raised (the only other possible failure is the `TypeError` of an
ill-typed `sensor` field). -/
theorem rgb_count_validation (selfInfo : Info) (ps qs : List (Projectable Grid))
    (hne : ps.length ≠ 3) (heq : qs.length = 3) :
    RGBCompositor.call selfInfo ps =
      .error (.valueError ("Expected 3 projectables, got " ++ toString ps.length)) ∧
    ∀ msg, RGBCompositor.call selfInfo qs ≠ .error (.valueError msg) := by
  constructor
  · match ps, hne with
    | [], _ => rfl
    | [a], _ => rfl
    | [a, b], _ => rfl
    | [a, b, c], hne => exact absurd rfl hne
    | a :: b :: c :: d :: r, _ => rfl
  · match qs, heq with
    | [q0, q1, q2], _ =>
      intro msg hbad
      cases hcs : collectSensors [q0, q1, q2] with
      | error e =>
        simp only [RGBCompositor.call, hcs] at hbad
        obtain ⟨m, rfl⟩ := collectSensors_error [q0, q1, q2] e hcs
        cases hbad
      | ok s => simp [RGBCompositor.call, hcs] at hbad

theorem rgb_count_validation_witness :
    RGBCompositor.call [] [wBandA, wBandB] =
      .error (.valueError ("Expected 3 projectables, got " ++ toString
        ([wBandA, wBandB].length : Nat))) ∧
    ∀ msg, RGBCompositor.call [] [wBandA, wBandB, wBandC] ≠
      .error (.valueError msg) :=
  rgb_count_validation [] [wBandA, wBandB] [wBandA, wBandB, wBandC]
    (by decide) (by decide)

/-! ## Lemmas about dictionary lookup and the metadata merge -/

theorem pick_none_right (a : Option Value) : pick a none = a := by
  cases a <;> rfl

theorem pick_none_left (b : Option Value) : pick none b = b := rfl

theorem pick_assoc (a b c : Option Value) :
    pick (pick a b) c = pick a (pick b c) := by
  cases a <;> cases b <;> rfl

theorem Info.lookup_cons (k1 : String) (v1 : Value) (rest : Info) (k : String) :
    Info.lookup ((k1, v1) :: rest) k =
      pick (Info.lookup rest k) (if k1 = k then some v1 else none) := by
  cases h : Info.lookup rest k <;> simp [Info.lookup, h, pick]

theorem Info.lookup_append (a b : Info) (k : String) :
    Info.lookup (a ++ b) k = pick (Info.lookup b k) (Info.lookup a k) := by
  induction a with
  | nil => simp [Info.lookup, pick_none_right]
  | cons kv rest ih =>
    obtain ⟨k1, v1⟩ := kv
    rw [List.cons_append, Info.lookup_cons, Info.lookup_cons, ih, pick_assoc]

theorem Info.lookup_update (a b : Info) (k : String) :
    Info.lookup (a.update b) k = pick (Info.lookup b k) (Info.lookup a k) :=
  Info.lookup_append a b k

theorem Info.lookup_pop (a : Info) (key k : String) :
    Info.lookup (a.pop key) k =
      if k = key then none else Info.lookup a k := by
  induction a with
  | nil => simp [Info.pop, Info.lookup]
  | cons kv rest ih =>
    obtain ⟨k1, v1⟩ := kv
    simp only [Info.pop] at ih ⊢
    rw [List.filter_cons]
    by_cases hk : k1 = key
    · have hd : (decide ¬((k1, v1).1 = key)) = false := by simp [hk]
      rw [hd]
      simp only [Bool.false_eq_true, if_false]
      rw [ih, Info.lookup_cons]
      by_cases hkey : k = key
      · simp [hkey]
      · have hne : ¬ (k1 = k) := by
          rw [hk]; exact fun hh => hkey hh.symm
        simp [hkey, hne, pick_none_right]
    · have hd : (decide ¬((k1, v1).1 = key)) = true := by simp [hk]
      rw [hd]
      simp only [if_true]
      rw [Info.lookup_cons, Info.lookup_cons, ih]
      by_cases hkey : k = key
      · have hne : ¬ (k1 = k) := fun hh => hk (hh.trans hkey)
        simp [hkey, hne, hk, pick_none_left]
      · simp [hkey]

theorem Info.lookup_set (a : Info) (key : String) (v : Value) (k : String) :
    Info.lookup (a.set key v) k =
      if key = k then some v else Info.lookup a k := by
  rw [Info.set, Info.lookup_append]
  by_cases hk : key = k
  · simp [hk, Info.lookup, pick]
  · simp [hk, Info.lookup, pick_none_left]

/-- Concrete inputs on which claim C3 fails: the compositor's own
metadata carries a `sensor` value, which the claimed merge would keep,
but `RGBCompositor.__call__` overwrites `sensor` with the value
aggregated from the bands after the merge. -/
def cSelf3 : Info := [("sensor", Value.vstr "Z"), ("own", Value.vstr "self")]

def cBand0 : Projectable Grid := ⟨[[some 1]], [("sensor", .vstr "A")]⟩

def cBand1 : Projectable Grid := ⟨[[some 2]], []⟩

def cBand2 : Projectable Grid := ⟨[[some 3]], []⟩

/-- C3 counterexample: on `cSelf3`/`cBand0`/`cBand1`/`cBand2` the claimed
output metadata (`specMergedInfo`, spelled exactly as the claim words the
merge) has `sensor = "Z"` — the composite's own value winning — while
the code's output has `sensor = "A"`, so the claimed equality of
metadata fails at this input. -/
theorem rgb_info_merge_counterexample :
    (RGBCompositor.call cSelf3 [cBand0, cBand1, cBand2]).map
        (fun out => out.info.lookup "sensor") = .ok (some (.vstr "A")) ∧
    (specMergedInfo cSelf3 cBand0 cBand1 cBand2).lookup "sensor"
        = some (.vstr "Z") ∧
    Value.vstr "A" ≠ Value.vstr "Z" := by
  refine ⟨by rfl, by rfl, by decide⟩

/-- C3 (amended): the output metadata is band 0's overlaid by band 1's,
band 2's, then the compositor's own — later writer wins — for every key
except the four the code then rewrites: `wavelength_range` and `units`
are removed, `mode` is forced to `"RGB"`, and `sensor` is replaced by
the value aggregated from the bands (so for `sensor` the composite's own
metadata does NOT win). -/
theorem rgb_info_merge (selfInfo : Info) (p0 p1 p2 : Projectable Grid)
    (out : Projectable (List Grid))
    (hok : RGBCompositor.call selfInfo [p0, p1, p2] = .ok out) :
    (∀ k, k ≠ "wavelength_range" → k ≠ "units" → k ≠ "sensor" → k ≠ "mode" →
      out.info.lookup k =
        pick (selfInfo.lookup k)
          (pick (p2.info.lookup k)
            (pick (p1.info.lookup k) (p0.info.lookup k)))) ∧
    out.info.lookup "wavelength_range" = none ∧
    out.info.lookup "units" = none ∧
    out.info.lookup "mode" = some (.vstr "RGB") ∧
    (∃ s, collectSensors [p0, p1, p2] = .ok s ∧
      out.info.lookup "sensor" = some (sensorValue s)) := by
  obtain ⟨s, hcs, _, hinfo⟩ := rgb_call_ok_elim selfInfo p0 p1 p2 out hok
  rw [hinfo]
  refine ⟨?_, ?_, ?_, ?_, s, hcs, ?_⟩
  · intro k hwl hun hsen hmode
    rw [Info.lookup_set, Info.lookup_set, Info.lookup_pop, Info.lookup_pop,
      Info.lookup_update, Info.lookup_update, Info.lookup_update]
    have h1 : ¬ ("mode" = k) := fun hh => hmode hh.symm
    have h2 : ¬ ("sensor" = k) := fun hh => hsen hh.symm
    simp [h1, h2, hwl, hun, pick_assoc]
  · rw [Info.lookup_set, Info.lookup_set, Info.lookup_pop, Info.lookup_pop]
    simp
  · rw [Info.lookup_set, Info.lookup_set, Info.lookup_pop]
    simp
  · rw [Info.lookup_set]
    simp
  · rw [Info.lookup_set, Info.lookup_set]
    simp

theorem rgb_info_merge_witness :
    (∀ k, k ≠ "wavelength_range" → k ≠ "units" → k ≠ "sensor" → k ≠ "mode" →
      (Info.lookup
        (((RGBCompositor.call cSelf3 [cBand0, cBand1, cBand2]).toOption.getD
          ⟨[], []⟩).info) k) =
        pick (cSelf3.lookup k)
          (pick (cBand2.info.lookup k)
            (pick (cBand1.info.lookup k) (cBand0.info.lookup k)))) ∧
    Info.lookup (((RGBCompositor.call cSelf3 [cBand0, cBand1, cBand2]).toOption.getD
        ⟨[], []⟩).info) "wavelength_range" = none ∧
    Info.lookup (((RGBCompositor.call cSelf3 [cBand0, cBand1, cBand2]).toOption.getD
        ⟨[], []⟩).info) "units" = none ∧
    Info.lookup (((RGBCompositor.call cSelf3 [cBand0, cBand1, cBand2]).toOption.getD
        ⟨[], []⟩).info) "mode" = some (.vstr "RGB") ∧
    (∃ s, collectSensors [cBand0, cBand1, cBand2] = .ok s ∧
      Info.lookup (((RGBCompositor.call cSelf3 [cBand0, cBand1, cBand2]).toOption.getD
        ⟨[], []⟩).info) "sensor" = some (sensorValue s)) :=
  rgb_info_merge cSelf3 cBand0 cBand1 cBand2
    ((RGBCompositor.call cSelf3 [cBand0, cBand1, cBand2]).toOption.getD ⟨[], []⟩)
    (by rfl)

/-! ## Lemmas about sensor aggregation -/

theorem mem_sset_insert (x y : String) (s : List String) :
    x ∈ SSet.insert y s ↔ x = y ∨ x ∈ s := by
  induction s with
  | nil => simp [SSet.insert]
  | cons z zs ih =>
    simp only [SSet.insert]
    split_ifs with h1 h2
    · subst h1
      simp only [List.mem_cons]
      tauto
    · simp [List.mem_cons]
    · simp only [List.mem_cons, ih]
      tauto

theorem mem_sset_union (t : List String) :
    ∀ (s : List String) (x : String),
    x ∈ SSet.union s t ↔ x ∈ s ∨ x ∈ t := by
  induction t with
  | nil => intro s x; simp [SSet.union]
  | cons z zs ih =>
    intro s x
    have hstep : SSet.union s (z :: zs) = SSet.union (SSet.insert z s) zs := rfl
    rw [hstep, ih, mem_sset_insert]
    simp only [List.mem_cons]
    tauto

theorem addSensor_ok_mem (acc s : List String) (v : Option Value)
    (h : addSensor acc v = .ok s) (x : String) :
    x ∈ s ↔ x ∈ acc ∨ mentionsV v x := by
  cases v with
  | none =>
    simp only [addSensor, Except.ok.injEq] at h
    subst h
    simp [mentionsV]
  | some val =>
    cases val with
    | vstr t =>
      by_cases ht : t = ""
      · simp only [addSensor, ht, if_pos rfl, Except.ok.injEq] at h
        subst h
        simp [mentionsV, ht]
      · simp only [addSensor, if_neg ht, Except.ok.injEq] at h
        subst h
        rw [mem_sset_insert]
        simp only [mentionsV, ht]
        tauto
    | vset l =>
      by_cases hl : l = []
      · simp only [addSensor, hl, if_pos rfl, Except.ok.injEq] at h
        subst h
        simp [mentionsV, hl]
      · simp only [addSensor, if_neg hl, Except.ok.injEq] at h
        subst h
        rw [mem_sset_union]
        simp [mentionsV]
    | vnone =>
      simp only [addSensor, Except.ok.injEq] at h
      subst h
      simp [mentionsV]
    | vnum q =>
      by_cases hq : q = 0
      · simp only [addSensor] at h
        rw [if_pos hq] at h
        simp only [Except.ok.injEq] at h
        subst h
        simp [mentionsV]
      · simp [addSensor, hq] at h
    | vtime t => simp [addSensor] at h
    | varea a => simp [addSensor] at h

theorem collectSensors3_mem (p0 p1 p2 : Projectable Grid) (s : List String)
    (h : collectSensors [p0, p1, p2] = .ok s) (x : String) :
    x ∈ s ↔ sensorMentions p0 x ∨ sensorMentions p1 x ∨ sensorMentions p2 x := by
  simp only [collectSensors, List.foldlM_cons, List.foldlM_nil] at h
  cases h0 : addSensor [] (p0.info.lookup "sensor") with
  | error e => rw [h0] at h; simp [Bind.bind, Except.bind] at h
  | ok a1 =>
    rw [h0] at h
    simp only [Bind.bind, Except.bind] at h
    cases h1 : addSensor a1 (p1.info.lookup "sensor") with
    | error e => rw [h1] at h; simp at h
    | ok a2 =>
      rw [h1] at h
      simp only [pure, Except.pure] at h
      cases h2 : addSensor a2 (p2.info.lookup "sensor") with
      | error e => rw [h2] at h; simp at h
      | ok a3 =>
        rw [h2] at h
        simp only [Except.ok.injEq] at h
        subst h
        rw [addSensor_ok_mem a2 a3 _ h2 x, addSensor_ok_mem a1 a2 _ h1 x,
          addSensor_ok_mem [] a1 _ h0 x]
        simp only [List.not_mem_nil, false_or]
        unfold sensorMentions
        tauto

/-- C4: on a successful RGB composite the output's `sensor` metadata is
the collapse of the set collecting every band's sensor contribution —
`None` when the set is empty, the single string when it is a singleton,
the set itself otherwise — and membership in the collected set is
exactly "some band's `sensor` (string or set of strings) mentions it". -/
theorem rgb_sensor_aggregation (selfInfo : Info) (p0 p1 p2 : Projectable Grid)
    (out : Projectable (List Grid))
    (hok : RGBCompositor.call selfInfo [p0, p1, p2] = .ok out) :
    ∃ s, collectSensors [p0, p1, p2] = .ok s ∧
      out.info.lookup "sensor" = some (sensorValue s) ∧
      (∀ x, x ∈ s ↔
        sensorMentions p0 x ∨ sensorMentions p1 x ∨ sensorMentions p2 x) ∧
      sensorValue [] = .vnone ∧
      (∀ y, sensorValue [y] = .vstr y) ∧
      (∀ y z l, sensorValue (y :: z :: l) = .vset (y :: z :: l)) := by
  obtain ⟨s, hcs, _, hinfo⟩ := rgb_call_ok_elim selfInfo p0 p1 p2 out hok
  refine ⟨s, hcs, ?_, collectSensors3_mem p0 p1 p2 s hcs, rfl,
    fun y => rfl, fun y z l => rfl⟩
  rw [hinfo, Info.lookup_set, Info.lookup_set]
  simp

def wSensorSetBand : Projectable Grid := ⟨[[some 1]], [("sensor", .vset [])]⟩

theorem rgb_sensor_aggregation_witness :
    ∃ s, collectSensors [wBandA, wBandB, wSensorSetBand] = .ok s ∧
      (Info.lookup
        (((RGBCompositor.call [] [wBandA, wBandB, wSensorSetBand]).toOption.getD
          ⟨[], []⟩).info) "sensor") = some (sensorValue s) ∧
      (∀ x, x ∈ s ↔
        sensorMentions wBandA x ∨ sensorMentions wBandB x ∨
        sensorMentions wSensorSetBand x) ∧
      sensorValue [] = .vnone ∧
      (∀ y, sensorValue [y] = .vstr y) ∧
      (∀ y z l, sensorValue (y :: z :: l) = .vset (y :: z :: l)) :=
  rgb_sensor_aggregation [] wBandA wBandB wSensorSetBand
    ((RGBCompositor.call [] [wBandA, wBandB, wSensorSetBand]).toOption.getD ⟨[], []⟩)
    (by rfl)

/-! ## Lemmas about the sun-zenith cosine cache -/

theorem cacheLookup_insert_self (c : CosCache) (k : Nat × String) (g : Grid) :
    cacheLookup (cacheInsert c k g) k = some g := by
  simp [cacheLookup, cacheInsert, List.find?]

theorem cacheLookup_insert_ne (c : CosCache) (k k' : Nat × String) (g : Grid)
    (h : k' ≠ k) : cacheLookup (cacheInsert c k g) k' = cacheLookup c k' := by
  have hd : (decide (k = k')) = false := by
    simp only [decide_eq_false_iff_not]
    exact fun hh => h hh.symm
  simp [cacheLookup, cacheInsert, List.find?, hd]

/-- C5: the cosine cache never recomputes and never evicts.  Starting
from a cache without the key of band `p`, the first normalization call
computes the grid (`computed = true`) and stores it under
`(start_time, area.name)`; a second call with the same key reuses it
(`computed = false`) and leaves the cache exactly as it was — so the
angle computation ran exactly once across the two calls; a call for a
band with a different, absent key computes afresh, adds its own entry,
and leaves every other entry untouched. -/
theorem szn_cache_once (cz : Nat → Rat × Rat → Rat) (c : CosCache)
    (p q : Projectable Grid) (t : Nat) (a : Area) (u : Nat) (b : Area)
    (hpt : p.info.lookup "start_time" = some (.vtime t))
    (hpa : p.info.lookup "area" = some (.varea a))
    (hqt : q.info.lookup "start_time" = some (.vtime u))
    (hqa : q.info.lookup "area" = some (.varea b))
    (hmiss : cacheLookup c (t, a.name) = none) :
    ∃ r1, sunZenithNormalize cz c p = .ok r1 ∧ r1.computed = true ∧
      r1.cache = cacheInsert c (t, a.name) (cosZenMasked cz t a) ∧
      cacheLookup r1.cache (t, a.name) = some (cosZenMasked cz t a) ∧
      (∃ r2, sunZenithNormalize cz r1.cache p = .ok r2 ∧
        r2.computed = false ∧ r2.cache = r1.cache) ∧
      ((u, b.name) ≠ (t, a.name) → cacheLookup c (u, b.name) = none →
        ∃ r3, sunZenithNormalize cz r1.cache q = .ok r3 ∧ r3.computed = true ∧
          cacheLookup r3.cache (u, b.name) = some (cosZenMasked cz u b) ∧
          ∀ k, k ≠ (u, b.name) →
            cacheLookup r3.cache k = cacheLookup r1.cache k) := by
  have hc1 : sunZenithNormalize cz c p =
      .ok ⟨cacheInsert c (t, a.name) (cosZenMasked cz t a),
           p.divGrid (cosZenMasked cz t a), true⟩ := by
    simp [sunZenithNormalize, hpt, hpa, hmiss]
  refine ⟨_, hc1, rfl, rfl, cacheLookup_insert_self c _ _, ?_, ?_⟩
  · have hhit := cacheLookup_insert_self c (t, a.name) (cosZenMasked cz t a)
    have hc2 : sunZenithNormalize cz
        (cacheInsert c (t, a.name) (cosZenMasked cz t a)) p =
        .ok ⟨cacheInsert c (t, a.name) (cosZenMasked cz t a),
             p.divGrid (cosZenMasked cz t a), false⟩ := by
      simp [sunZenithNormalize, hpt, hpa, hhit]
    exact ⟨_, hc2, rfl, rfl⟩
  · intro hne hqmiss
    have hq1 : cacheLookup (cacheInsert c (t, a.name) (cosZenMasked cz t a))
        (u, b.name) = none := by
      rw [cacheLookup_insert_ne c _ _ _ hne]
      exact hqmiss
    have hc3 : sunZenithNormalize cz
        (cacheInsert c (t, a.name) (cosZenMasked cz t a)) q =
        .ok ⟨cacheInsert (cacheInsert c (t, a.name) (cosZenMasked cz t a))
              (u, b.name) (cosZenMasked cz u b),
             q.divGrid (cosZenMasked cz u b), true⟩ := by
      simp [sunZenithNormalize, hqt, hqa, hq1]
    exact ⟨_, hc3, rfl, cacheLookup_insert_self _ _ _,
      fun k hk => cacheLookup_insert_ne _ _ _ _ hk⟩

def czW : Nat → Rat × Rat → Rat := fun _ _ => 1/2

def areaW1 : Area := ⟨"scan1", [[(0, 0), (1, 1)]]⟩

def areaW2 : Area := ⟨"scan2", [[(2, 2), (3, 3)]]⟩

def wBandT1 : Projectable Grid :=
  ⟨[[some 1, some 2]],
   [("start_time", .vtime 10), ("area", .varea areaW1), ("units", .vstr "%")]⟩

def wBandT2 : Projectable Grid :=
  ⟨[[some 3, none]],
   [("start_time", .vtime 10), ("area", .varea areaW2)]⟩

theorem szn_cache_once_witness :
    ∃ r1, sunZenithNormalize czW [] wBandT1 = .ok r1 ∧ r1.computed = true ∧
      r1.cache = cacheInsert [] (10, areaW1.name) (cosZenMasked czW 10 areaW1) ∧
      cacheLookup r1.cache (10, areaW1.name) = some (cosZenMasked czW 10 areaW1) ∧
      (∃ r2, sunZenithNormalize czW r1.cache wBandT1 = .ok r2 ∧
        r2.computed = false ∧ r2.cache = r1.cache) ∧
      ((10, areaW2.name) ≠ (10, areaW1.name) →
        cacheLookup [] (10, areaW2.name) = none →
        ∃ r3, sunZenithNormalize czW r1.cache wBandT2 = .ok r3 ∧
          r3.computed = true ∧
          cacheLookup r3.cache (10, areaW2.name) = some (cosZenMasked czW 10 areaW2) ∧
          ∀ k, k ≠ (10, areaW2.name) →
            cacheLookup r3.cache k = cacheLookup r1.cache k) :=
  szn_cache_once czW [] wBandT1 wBandT2 10 areaW1 10 areaW2
    (by rfl) (by rfl) (by rfl) (by rfl) (by rfl)

/-! ## Lemmas about masking and element-wise arithmetic -/

theorem cell_div_none_right (x : Cell) : Cell.div x none = none := by
  cases x <;> rfl

theorem cell_div_none_left (y : Cell) : Cell.div none y = none := by
  cases y <;> rfl

theorem cell_sub_none_right (x : Cell) : Cell.sub x none = none := by
  cases x <;> rfl

theorem cell_sub_none_left (y : Cell) : Cell.sub none y = none := by
  cases y <;> rfl

theorem zipWith_getD_none (f : Cell → Cell → Cell)
    (hl : ∀ y, f none y = none) (hr : ∀ x, f x none = none) :
    ∀ (ra rb : List Cell) (j : Nat),
    (List.zipWith f ra rb).getD j none = f (ra.getD j none) (rb.getD j none) := by
  intro ra
  induction ra with
  | nil =>
    intro rb j
    simp [List.getD, hl]
  | cons x xs ih =>
    intro rb j
    cases rb with
    | nil => simp [List.getD, hr]
    | cons y ys =>
      cases j with
      | zero => simp [List.zipWith_cons_cons, List.getD_cons_zero]
      | succ n =>
        simp only [List.zipWith_cons_cons, List.getD_cons_succ]
        exact ih ys n

theorem zipWith_grid_cellAt (f : Cell → Cell → Cell)
    (hl : ∀ y, f none y = none) (hr : ∀ x, f x none = none) :
    ∀ (a b : Grid) (i j : Nat),
    Grid.cellAt (List.zipWith (fun ra rb => List.zipWith f ra rb) a b) i j
      = f (a.cellAt i j) (b.cellAt i j) := by
  intro a
  induction a with
  | nil =>
    intro b i j
    simp [Grid.cellAt, List.getD, hl]
  | cons ra as' ih =>
    intro b i j
    cases b with
    | nil => simp [Grid.cellAt, List.getD, hr]
    | cons rb bs =>
      cases i with
      | zero =>
        simp only [List.zipWith_cons_cons, Grid.cellAt, List.getD_cons_zero]
        exact zipWith_getD_none f hl hr ra rb j
      | succ n =>
        simp only [List.zipWith_cons_cons, Grid.cellAt, List.getD_cons_succ]
        exact ih bs n j

theorem grid_div_cellAt (a b : Grid) (i j : Nat) :
    (a.div b).cellAt i j = Cell.div (a.cellAt i j) (b.cellAt i j) :=
  zipWith_grid_cellAt Cell.div cell_div_none_left cell_div_none_right a b i j

theorem grid_sub_cellAt (a b : Grid) (i j : Nat) :
    (a.sub b).cellAt i j = Cell.sub (a.cellAt i j) (b.cellAt i j) :=
  zipWith_grid_cellAt Cell.sub cell_sub_none_left cell_sub_none_right a b i j

/-- C6: the cosine-of-zenith grid is masked with inclusive bounds —
a value strictly below 0.035 or strictly above 1 becomes masked, the
values exactly 0.035 and exactly 1 are retained — and a masked cosine
cell makes the corresponding cell of the divided output masked. -/
theorem szn_masking_bounds (cz : Nat → Rat × Rat → Rat) (c : CosCache)
    (p : Projectable Grid) (t : Nat) (a : Area)
    (hpt : p.info.lookup "start_time" = some (.vtime t))
    (hpa : p.info.lookup "area" = some (.varea a))
    (hmiss : cacheLookup c (t, a.name) = none) :
    ∃ r, sunZenithNormalize cz c p = .ok r ∧
      r.result.data = p.data.div (cosZenMasked cz t a) ∧
      (∀ x : Rat, maskCell (35/1000) 1 (some x) =
        if x < 35/1000 ∨ 1 < x then none else some x) ∧
      maskCell (35/1000) 1 (some (35/1000)) = some (35/1000) ∧
      maskCell (35/1000) 1 (some 1) = some 1 ∧
      (∀ x : Rat, x < 35/1000 → maskCell (35/1000) 1 (some x) = none) ∧
      (∀ x : Rat, 1 < x → maskCell (35/1000) 1 (some x) = none) ∧
      (∀ i j, r.result.data.cellAt i j =
        Cell.div (p.data.cellAt i j) ((cosZenMasked cz t a).cellAt i j)) ∧
      (∀ i j, (cosZenMasked cz t a).cellAt i j = none →
        r.result.data.cellAt i j = none) := by
  have hc1 : sunZenithNormalize cz c p =
      .ok ⟨cacheInsert c (t, a.name) (cosZenMasked cz t a),
           p.divGrid (cosZenMasked cz t a), true⟩ := by
    simp [sunZenithNormalize, hpt, hpa, hmiss]
  refine ⟨_, hc1, rfl, fun x => rfl, by norm_num [maskCell], by norm_num [maskCell],
    ?_, ?_, ?_, ?_⟩
  · intro x hx
    simp [maskCell, hx]
  · intro x hx
    simp [maskCell, hx]
  · intro i j
    exact grid_div_cellAt p.data (cosZenMasked cz t a) i j
  · intro i j hmask
    show Grid.cellAt (p.data.div (cosZenMasked cz t a)) i j = none
    rw [grid_div_cellAt p.data (cosZenMasked cz t a) i j, hmask]
    exact cell_div_none_right _

theorem szn_masking_bounds_witness :
    ∃ r, sunZenithNormalize czW [] wBandT1 = .ok r ∧
      r.result.data = wBandT1.data.div (cosZenMasked czW 10 areaW1) ∧
      (∀ x : Rat, maskCell (35/1000) 1 (some x) =
        if x < 35/1000 ∨ 1 < x then none else some x) ∧
      maskCell (35/1000) 1 (some (35/1000)) = some (35/1000) ∧
      maskCell (35/1000) 1 (some 1) = some 1 ∧
      (∀ x : Rat, x < 35/1000 → maskCell (35/1000) 1 (some x) = none) ∧
      (∀ x : Rat, 1 < x → maskCell (35/1000) 1 (some x) = none) ∧
      (∀ i j, r.result.data.cellAt i j =
        Cell.div (wBandT1.data.cellAt i j) ((cosZenMasked czW 10 areaW1).cellAt i j)) ∧
      (∀ i j, (cosZenMasked czW 10 areaW1).cellAt i j = none →
        r.result.data.cellAt i j = none) :=
  szn_masking_bounds czW [] wBandT1 10 areaW1 (by rfl) (by rfl) (by rfl)

/-! ## Lemmas about the sun-corrected replacement loop -/

theorem szn_ok_result (cz : Nat → Rat × Rat → Rat) (c : CosCache)
    (p : Projectable Grid) (r : SZNResult)
    (hok : sunZenithNormalize cz c p = .ok r) (hf : KeyFaithful cz c p) :
    normalizeSpec cz p = some r.result := by
  unfold sunZenithNormalize at hok
  split at hok
  · rename_i t a hpt hpa
    split at hok
    · rename_i g hcl
      simp only [Except.ok.injEq] at hok
      subst hok
      rcases hf t a hpt hpa with hn | hs
      · rw [hcl] at hn
        cases hn
      · rw [hcl] at hs
        simp only [Option.some.injEq] at hs
        subst hs
        simp [normalizeSpec, hpt, hpa]
    · simp only [Except.ok.injEq] at hok
      subst hok
      simp [normalizeSpec, hpt, hpa]
  · simp at hok
  · simp at hok
  · simp at hok

theorem szn_preserves_faithful (cz : Nat → Rat × Rat → Rat) (c : CosCache)
    (p : Projectable Grid) (r : SZNResult)
    (hok : sunZenithNormalize cz c p = .ok r)
    (q : Projectable Grid) (hq : KeyFaithful cz c q)
    (hco : ∀ t a u b,
      p.info.lookup "start_time" = some (.vtime t) →
      p.info.lookup "area" = some (.varea a) →
      q.info.lookup "start_time" = some (.vtime u) →
      q.info.lookup "area" = some (.varea b) →
      t = u → a.name = b.name → a = b) :
    KeyFaithful cz r.cache q := by
  unfold sunZenithNormalize at hok
  split at hok
  · rename_i t a hpt hpa
    split at hok
    · rename_i g hcl
      simp only [Except.ok.injEq] at hok
      subst hok
      exact hq
    · rename_i hcl
      simp only [Except.ok.injEq] at hok
      subst hok
      intro u b hqt hqa
      by_cases hk : (u, b.name) = (t, a.name)
      · right
        have ht : t = u := (Prod.mk.injEq u (b.name) t (a.name) ▸ hk).1.symm
        have hn : a.name = b.name := ((Prod.mk.injEq u (b.name) t (a.name) ▸ hk).2).symm
        have hab : a = b := hco t a u b hpt hpa hqt hqa ht hn
        show cacheLookup (cacheInsert c (t, a.name) (cosZenMasked cz t a))
            (u, b.name) = some (cosZenMasked cz u b)
        rw [hk, cacheLookup_insert_self, ht, hab]
      · show cacheLookup (cacheInsert c (t, a.name) (cosZenMasked cz t a))
            (u, b.name) = none ∨
          cacheLookup (cacheInsert c (t, a.name) (cosZenMasked cz t a))
            (u, b.name) = some (cosZenMasked cz u b)
        rw [cacheLookup_insert_ne c _ _ _ hk]
        exact hq u b hqt hqa
  · simp at hok
  · simp at hok
  · simp at hok

theorem pairCoherent_tail (p : Projectable Grid) (rest : List (Projectable Grid))
    (h : PairCoherent (p :: rest)) : PairCoherent rest :=
  fun q hq q2 hq2 =>
    h q (List.mem_cons_of_mem p hq) q2 (List.mem_cons_of_mem p hq2)

theorem correctLoop_spec (cz : Nat → Rat × Rat → Rat) :
    ∀ (ps : List (Projectable Grid)) (c c' : CosCache)
      (l : List (Projectable Grid)),
    correctLoop cz c ps = .ok (c', l) →
    (∀ p ∈ ps, KeyFaithful cz c p) →
    PairCoherent ps →
    l.length = ps.length ∧
    (∀ i (hi : i < ps.length) (hl : i < l.length),
      if (ps.get ⟨i, hi⟩).info.lookup "units" = some (.vstr "%")
      then normalizeSpec cz (ps.get ⟨i, hi⟩) = some (l.get ⟨i, hl⟩)
      else l.get ⟨i, hl⟩ = ps.get ⟨i, hi⟩) := by
  intro ps
  induction ps with
  | nil =>
    intro c c' l hok _ _
    simp only [correctLoop, Except.ok.injEq, Prod.mk.injEq] at hok
    obtain ⟨_, hl⟩ := hok
    subst hl
    exact ⟨rfl, fun i hi => absurd hi (by simp)⟩
  | cons p rest ih =>
    intro c c' l hok hf hcoh
    simp only [correctLoop] at hok
    by_cases hu : p.info.lookup "units" = some (.vstr "%")
    · rw [if_pos hu] at hok
      cases hszn : sunZenithNormalize cz c p with
      | error e => rw [hszn] at hok; cases hok
      | ok r =>
        rw [hszn] at hok
        dsimp only at hok
        cases hrest : correctLoop cz r.cache rest with
        | error e => rw [hrest] at hok; cases hok
        | ok pr =>
          obtain ⟨c2, l2⟩ := pr
          rw [hrest] at hok
          dsimp only at hok
          simp only [Except.ok.injEq, Prod.mk.injEq] at hok
          obtain ⟨hc2, hl2⟩ := hok
          subst hl2
          have hfp : KeyFaithful cz c p := hf p (List.mem_cons_self p rest)
          have hfr : ∀ q ∈ rest, KeyFaithful cz r.cache q := by
            intro q hq
            refine szn_preserves_faithful cz c p r hszn q
              (hf q (List.mem_cons_of_mem p hq)) ?_
            intro t a u b hpt hpa hqt hqa ht hn
            exact hcoh p (List.mem_cons_self p rest) q
              (List.mem_cons_of_mem p hq) t a u b hpt hpa hqt hqa ht hn
          have htail := ih r.cache c2 l2 hrest hfr (pairCoherent_tail p rest hcoh)
          refine ⟨by simp [htail.1], ?_⟩
          intro i hi hl
          cases i with
          | zero =>
            simp only [List.get]
            rw [if_pos hu]
            exact szn_ok_result cz c p r hszn hfp
          | succ n =>
            simp only [List.get]
            exact htail.2 n (by simpa using hi) (by simpa using hl)
    · rw [if_neg hu] at hok
      cases hrest : correctLoop cz c rest with
      | error e => rw [hrest] at hok; cases hok
      | ok pr =>
        obtain ⟨c2, l2⟩ := pr
        rw [hrest] at hok
        simp only [Except.ok.injEq, Prod.mk.injEq] at hok
        obtain ⟨hc2, hl2⟩ := hok
        subst hl2
        have hfr : ∀ q ∈ rest, KeyFaithful cz c q :=
          fun q hq => hf q (List.mem_cons_of_mem p hq)
        have htail := ih c c2 l2 hrest hfr (pairCoherent_tail p rest hcoh)
        refine ⟨by simp [htail.1], ?_⟩
        intro i hi hl
        cases i with
        | zero =>
          simp only [List.get]
          rw [if_neg hu]
          trivial
        | succ n =>
          simp only [List.get]
          exact htail.2 n (by simpa using hi) (by simpa using hl)

/-- C7: when the sun-corrected RGB compositor succeeds (with a cosine
cache that is faithful for the inputs and no two inputs aliasing the
same `(start_time, area.name)` key with different areas), the list
handed to the base RGB compositor replaces exactly the bands whose
`units` metadata is `"%"` by their sun-zenith-normalized version and
passes every other band through unchanged, and the composite result is
the base RGB compositor applied to that list. -/
theorem suncorrected_replaces_percent (cz : Nat → Rat × Rat → Rat)
    (selfInfo : Info) (cache : CosCache) (ps : List (Projectable Grid))
    (c' : CosCache) (l : List (Projectable Grid)) (out : Projectable (List Grid))
    (hf : ∀ p ∈ ps, KeyFaithful cz cache p)
    (hcoh : PairCoherent ps)
    (hok : SunCorrectedRGB.call cz selfInfo cache ps = .ok (c', l, out)) :
    l.length = ps.length ∧
    (∀ i (hi : i < ps.length) (hl : i < l.length),
      if (ps.get ⟨i, hi⟩).info.lookup "units" = some (.vstr "%")
      then normalizeSpec cz (ps.get ⟨i, hi⟩) = some (l.get ⟨i, hl⟩)
      else l.get ⟨i, hl⟩ = ps.get ⟨i, hi⟩) ∧
    RGBCompositor.call selfInfo l = .ok out := by
  unfold SunCorrectedRGB.call at hok
  cases hloop : correctLoop cz cache ps with
  | error e => rw [hloop] at hok; cases hok
  | ok pr =>
    obtain ⟨c2, l2⟩ := pr
    rw [hloop] at hok
    dsimp only at hok
    cases hrgb : RGBCompositor.call selfInfo l2 with
    | error e => rw [hrgb] at hok; cases hok
    | ok res =>
      rw [hrgb] at hok
      dsimp only at hok
      simp only [Except.ok.injEq, Prod.mk.injEq] at hok
      obtain ⟨hc, hl2, hres⟩ := hok
      subst hc; subst hl2; subst hres
      have hs := correctLoop_spec cz ps cache _ _ hloop hf hcoh
      exact ⟨hs.1, hs.2, hrgb⟩

def wBandP2 : Projectable Grid :=
  ⟨[[some 3, some 4]],
   [("start_time", .vtime 10), ("area", .varea areaW1), ("units", .vstr "K")]⟩

def wBandP3 : Projectable Grid :=
  ⟨[[some 5, none]],
   [("start_time", .vtime 10), ("area", .varea areaW1), ("sensor", .vstr "abi")]⟩

def wPs7 : List (Projectable Grid) := [wBandT1, wBandP2, wBandP3]

theorem wPs7_coherent : PairCoherent wPs7 := by
  intro p hp q hq t a u b h1 h2 h3 h4 h5 h6
  simp only [wPs7, List.mem_cons, List.not_mem_nil, or_false] at hp hq
  have ha : a = areaW1 := by
    rcases hp with rfl | rfl | rfl <;>
      · have h2e : some (Value.varea areaW1) = some (Value.varea a) := h2
        injection h2e with hh
        injection hh with hh2
        exact hh2.symm
  have hb : b = areaW1 := by
    rcases hq with rfl | rfl | rfl <;>
      · have h4e : some (Value.varea areaW1) = some (Value.varea b) := h4
        injection h4e with hh
        injection hh with hh2
        exact hh2.symm
  rw [ha, hb]

def wTriple7 : CosCache × List (Projectable Grid) × Projectable (List Grid) :=
  (SunCorrectedRGB.call czW [] [] wPs7).toOption.getD ([], [], ⟨[], []⟩)

theorem suncorrected_replaces_percent_witness :
    wTriple7.2.1.length = wPs7.length ∧
    (∀ i (hi : i < wPs7.length) (hl : i < wTriple7.2.1.length),
      if (wPs7.get ⟨i, hi⟩).info.lookup "units" = some (.vstr "%")
      then normalizeSpec czW (wPs7.get ⟨i, hi⟩) = some (wTriple7.2.1.get ⟨i, hl⟩)
      else wTriple7.2.1.get ⟨i, hl⟩ = wPs7.get ⟨i, hi⟩) ∧
    RGBCompositor.call [] wTriple7.2.1 = .ok wTriple7.2.2 :=
  suncorrected_replaces_percent czW [] [] wPs7 wTriple7.1 wTriple7.2.1 wTriple7.2.2
    (fun p _ => fun t a _ _ => Or.inl rfl) wPs7_coherent (by rfl)

theorem correctLoop_frame (cz : Nat → Rat × Rat → Rat) :
    ∀ (ps : List (Projectable Grid)) (c c' : CosCache)
      (l : List (Projectable Grid)),
    correctLoop cz c ps = .ok (c', l) →
    l.length = ps.length ∧
    (∀ i (hi : i < ps.length) (hl : i < l.length),
      ((ps.get ⟨i, hi⟩).info.lookup "units" ≠ some (.vstr "%") →
        l.get ⟨i, hl⟩ = ps.get ⟨i, hi⟩) ∧
      ((ps.get ⟨i, hi⟩).info.lookup "units" = some (.vstr "%") →
        ∃ ci ri, sunZenithNormalize cz ci (ps.get ⟨i, hi⟩) = .ok ri ∧
          l.get ⟨i, hl⟩ = ri.result)) := by
  intro ps
  induction ps with
  | nil =>
    intro c c' l hok
    simp only [correctLoop, Except.ok.injEq, Prod.mk.injEq] at hok
    obtain ⟨_, hl⟩ := hok
    subst hl
    exact ⟨rfl, fun i hi => absurd hi (by simp)⟩
  | cons p rest ih =>
    intro c c' l hok
    simp only [correctLoop] at hok
    by_cases hu : p.info.lookup "units" = some (.vstr "%")
    · rw [if_pos hu] at hok
      cases hszn : sunZenithNormalize cz c p with
      | error e => rw [hszn] at hok; cases hok
      | ok r =>
        rw [hszn] at hok
        dsimp only at hok
        cases hrest : correctLoop cz r.cache rest with
        | error e => rw [hrest] at hok; cases hok
        | ok pr =>
          obtain ⟨c2, l2⟩ := pr
          rw [hrest] at hok
          dsimp only at hok
          simp only [Except.ok.injEq, Prod.mk.injEq] at hok
          obtain ⟨hc2, hl2⟩ := hok
          subst hl2
          have htail := ih r.cache c2 l2 hrest
          refine ⟨by simp [htail.1], ?_⟩
          intro i hi hl
          cases i with
          | zero =>
            refine ⟨fun hne => absurd hu hne, fun _ => ⟨c, r, hszn, ?_⟩⟩
            simp only [List.get]
          | succ n =>
            simp only [List.get]
            exact htail.2 n (by simpa using hi) (by simpa using hl)
    · rw [if_neg hu] at hok
      cases hrest : correctLoop cz c rest with
      | error e => rw [hrest] at hok; cases hok
      | ok pr =>
        obtain ⟨c2, l2⟩ := pr
        rw [hrest] at hok
        dsimp only at hok
        simp only [Except.ok.injEq, Prod.mk.injEq] at hok
        obtain ⟨hc2, hl2⟩ := hok
        subst hl2
        have htail := ih c c2 l2 hrest
        refine ⟨by simp [htail.1], ?_⟩
        intro i hi hl
        cases i with
        | zero =>
          refine ⟨fun _ => ?_, fun hyes => absurd hyes hu⟩
          simp only [List.get]
        | succ n =>
          simp only [List.get]
          exact htail.2 n (by simpa using hi) (by simpa using hl)

/-- C10: a successful `SunCorrectedRGB.__call__` mutates the caller's
sequence in place: the list it then hands to the base RGB compositor is
the caller's list's final state, whose element at every index with
`units == "%"` has been overwritten by the output of the sun-zenith
normalizer for that band while every other index still holds the
caller's original band. -/
theorem suncorrected_mutates_callers_list (cz : Nat → Rat × Rat → Rat)
    (selfInfo : Info) (cache : CosCache) (ps : List (Projectable Grid))
    (c' : CosCache) (l : List (Projectable Grid)) (out : Projectable (List Grid))
    (hok : SunCorrectedRGB.call cz selfInfo cache ps = .ok (c', l, out)) :
    correctLoop cz cache ps = .ok (c', l) ∧
    RGBCompositor.call selfInfo l = .ok out ∧
    l.length = ps.length ∧
    (∀ i (hi : i < ps.length) (hl : i < l.length),
      ((ps.get ⟨i, hi⟩).info.lookup "units" ≠ some (.vstr "%") →
        l.get ⟨i, hl⟩ = ps.get ⟨i, hi⟩) ∧
      ((ps.get ⟨i, hi⟩).info.lookup "units" = some (.vstr "%") →
        ∃ ci ri, sunZenithNormalize cz ci (ps.get ⟨i, hi⟩) = .ok ri ∧
          l.get ⟨i, hl⟩ = ri.result)) := by
  unfold SunCorrectedRGB.call at hok
  cases hloop : correctLoop cz cache ps with
  | error e => rw [hloop] at hok; cases hok
  | ok pr =>
    obtain ⟨c2, l2⟩ := pr
    rw [hloop] at hok
    dsimp only at hok
    cases hrgb : RGBCompositor.call selfInfo l2 with
    | error e => rw [hrgb] at hok; cases hok
    | ok res =>
      rw [hrgb] at hok
      dsimp only at hok
      simp only [Except.ok.injEq, Prod.mk.injEq] at hok
      obtain ⟨hc, hl2, hres⟩ := hok
      subst hc; subst hl2; subst hres
      have hframe := correctLoop_frame cz ps cache _ _ hloop
      exact ⟨rfl, hrgb, hframe.1, hframe.2⟩

def wPs10 : List (Projectable Grid) := [wBandT1, wBandB, wBandC]

def wTriple10 : CosCache × List (Projectable Grid) × Projectable (List Grid) :=
  (SunCorrectedRGB.call czW [] [] wPs10).toOption.getD ([], [], ⟨[], []⟩)

theorem suncorrected_mutates_callers_list_witness :
    correctLoop czW [] wPs10 = .ok (wTriple10.1, wTriple10.2.1) ∧
    RGBCompositor.call [] wTriple10.2.1 = .ok wTriple10.2.2 ∧
    wTriple10.2.1.length = wPs10.length ∧
    (∀ i (hi : i < wPs10.length) (hl : i < wTriple10.2.1.length),
      ((wPs10.get ⟨i, hi⟩).info.lookup "units" ≠ some (.vstr "%") →
        wTriple10.2.1.get ⟨i, hl⟩ = wPs10.get ⟨i, hi⟩) ∧
      ((wPs10.get ⟨i, hi⟩).info.lookup "units" = some (.vstr "%") →
        ∃ ci ri, sunZenithNormalize czW ci (wPs10.get ⟨i, hi⟩) = .ok ri ∧
          wTriple10.2.1.get ⟨i, hl⟩ = ri.result)) :=
  suncorrected_mutates_callers_list czW [] [] wPs10
    wTriple10.1 wTriple10.2.1 wTriple10.2.2 (by rfl)

/-! ## Lemmas about the fixed-formula recipe variants -/

theorem exists_of_mem_zipWith (f : List Cell → List Cell → List Cell) :
    ∀ (a b : Grid) (row : List Cell), row ∈ List.zipWith f a b →
    ∃ ra rb, ra ∈ a ∧ rb ∈ b ∧ row = f ra rb := by
  intro a
  induction a with
  | nil => intro b row hrow; simp at hrow
  | cons ra as' ih =>
    intro b row hrow
    cases b with
    | nil => simp at hrow
    | cons rb bs =>
      simp only [List.zipWith_cons_cons, List.mem_cons] at hrow
      rcases hrow with rfl | hrow
      · exact ⟨ra, rb, by simp, by simp, rfl⟩
      · obtain ⟨x, y, hx, hy, hxy⟩ := ih bs row hrow
        exact ⟨x, y, List.mem_cons_of_mem _ hx, List.mem_cons_of_mem _ hy, hxy⟩

theorem grid_sub_shapeIs {h w : Nat} (a b : Grid)
    (ha : a.shapeIs h w) (hb : b.shapeIs h w) : (a.sub b).shapeIs h w := by
  obtain ⟨hal, haw⟩ := ha
  obtain ⟨hbl, hbw⟩ := hb
  constructor
  · rw [Grid.sub, List.length_zipWith, hal, hbl, Nat.min_self]
  · intro row hrow
    rw [Grid.sub] at hrow
    obtain ⟨ra, rb, hra, hrb, rfl⟩ :=
      exists_of_mem_zipWith (fun ra rb => List.zipWith Cell.sub ra rb) a b row hrow
    rw [List.length_zipWith, haw ra hra, hbw rb hrb, Nat.min_self]

/-- C8: `Airmass.__call__` on at least four bands `A, B, C, D, …`
delegates `[A − B, C − D, A]` to the base RGB compositor, and (for
equal-shape bands) the successful output's data is exactly those three
channels stacked in that order; the channels are element-wise,
mask-propagating subtractions. -/
theorem airmass_channels (selfInfo : Info) (A B C D : Projectable Grid)
    (rest : List (Projectable Grid)) (h w : Nat) (out : Projectable (List Grid))
    (hA : A.data.shapeIs h w) (hB : B.data.shapeIs h w)
    (hC : C.data.shapeIs h w) (hD : D.data.shapeIs h w)
    (hok : Airmass.call selfInfo (A :: B :: C :: D :: rest) = .ok out) :
    Airmass.call selfInfo (A :: B :: C :: D :: rest) =
      RGBCompositor.call selfInfo [A.sub B, C.sub D, A] ∧
    out.data = [A.data.sub B.data, C.data.sub D.data, A.data] ∧
    (∀ i j, (A.data.sub B.data).cellAt i j =
      Cell.sub (A.data.cellAt i j) (B.data.cellAt i j)) ∧
    (∀ i j, (C.data.sub D.data).cellAt i j =
      Cell.sub (C.data.cellAt i j) (D.data.cellAt i j)) := by
  have hdeleg : Airmass.call selfInfo (A :: B :: C :: D :: rest) =
      RGBCompositor.call selfInfo [A.sub B, C.sub D, A] := rfl
  refine ⟨hdeleg, ?_, fun i j => grid_sub_cellAt _ _ i j,
    fun i j => grid_sub_cellAt _ _ i j⟩
  rw [hdeleg] at hok
  obtain ⟨s, hcs, hdata, _⟩ := rgb_call_ok_elim selfInfo (A.sub B) (C.sub D) A out hok
  rw [hdata]
  exact rollaxis3_dstack3 _ _ _ (grid_sub_shapeIs _ _ hA hB)
    (grid_sub_shapeIs _ _ hC hD) hA

def wBandD : Projectable Grid := ⟨[[some 2, some 3], [some 4, none]], []⟩

def wOut8 : Projectable (List Grid) :=
  (Airmass.call [] [wBandA, wBandB, wBandC, wBandD]).toOption.getD ⟨[], []⟩

theorem airmass_channels_witness :
    Airmass.call [] [wBandA, wBandB, wBandC, wBandD] =
      RGBCompositor.call [] [wBandA.sub wBandB, wBandC.sub wBandD, wBandA] ∧
    wOut8.data = [wBandA.data.sub wBandB.data, wBandC.data.sub wBandD.data,
      wBandA.data] ∧
    (∀ i j, (wBandA.data.sub wBandB.data).cellAt i j =
      Cell.sub (wBandA.data.cellAt i j) (wBandB.data.cellAt i j)) ∧
    (∀ i j, (wBandC.data.sub wBandD.data).cellAt i j =
      Cell.sub (wBandC.data.cellAt i j) (wBandD.data.cellAt i j)) :=
  airmass_channels [] wBandA wBandB wBandC wBandD [] 2 2 wOut8
    (by decide) (by decide) (by decide) (by decide) (by rfl)

/-- C9: `Dust.__call__` on at least three bands `A, B, C, …` delegates
`[C − B, B − A, B]` to the base RGB compositor, and (for equal-shape
bands) the successful output's data is exactly those three channels
stacked in that order; the channels are element-wise, mask-propagating
subtractions. -/
theorem dust_channels (selfInfo : Info) (A B C : Projectable Grid)
    (rest : List (Projectable Grid)) (h w : Nat) (out : Projectable (List Grid))
    (hA : A.data.shapeIs h w) (hB : B.data.shapeIs h w) (hC : C.data.shapeIs h w)
    (hok : Dust.call selfInfo (A :: B :: C :: rest) = .ok out) :
    Dust.call selfInfo (A :: B :: C :: rest) =
      RGBCompositor.call selfInfo [C.sub B, B.sub A, B] ∧
    out.data = [C.data.sub B.data, B.data.sub A.data, B.data] ∧
    (∀ i j, (C.data.sub B.data).cellAt i j =
      Cell.sub (C.data.cellAt i j) (B.data.cellAt i j)) ∧
    (∀ i j, (B.data.sub A.data).cellAt i j =
      Cell.sub (B.data.cellAt i j) (A.data.cellAt i j)) := by
  have hdeleg : Dust.call selfInfo (A :: B :: C :: rest) =
      RGBCompositor.call selfInfo [C.sub B, B.sub A, B] := rfl
  refine ⟨hdeleg, ?_, fun i j => grid_sub_cellAt _ _ i j,
    fun i j => grid_sub_cellAt _ _ i j⟩
  rw [hdeleg] at hok
  obtain ⟨s, hcs, hdata, _⟩ := rgb_call_ok_elim selfInfo (C.sub B) (B.sub A) B out hok
  rw [hdata]
  exact rollaxis3_dstack3 _ _ _ (grid_sub_shapeIs _ _ hC hB)
    (grid_sub_shapeIs _ _ hB hA) hB

def wOut9 : Projectable (List Grid) :=
  (Dust.call [] [wBandA, wBandB, wBandC]).toOption.getD ⟨[], []⟩

theorem dust_channels_witness :
    Dust.call [] [wBandA, wBandB, wBandC] =
      RGBCompositor.call [] [wBandC.sub wBandB, wBandB.sub wBandA, wBandB] ∧
    wOut9.data = [wBandC.data.sub wBandB.data, wBandB.data.sub wBandA.data,
      wBandB.data] ∧
    (∀ i j, (wBandC.data.sub wBandB.data).cellAt i j =
      Cell.sub (wBandC.data.cellAt i j) (wBandB.data.cellAt i j)) ∧
    (∀ i j, (wBandB.data.sub wBandA.data).cellAt i j =
      Cell.sub (wBandB.data.cellAt i j) (wBandA.data.cellAt i j)) :=
  dust_channels [] wBandA wBandB wBandC [] 2 2 wOut9
    (by decide) (by decide) (by decide) (by rfl)

end Mpop
